import Mathlib

/-!
Verification development for the TaskFileAnalyzer directory scanner
(`task_analyzer.py`).  The Python source is shallowly embedded: the
filesystem is a pure `stat` oracle (`String → Except OSErr FileMeta`),
the module-level mutable table `unknown_ext` is threaded explicitly as a
value, and `multiprocessing.Pool.map` is modelled as a chunked map that
reassembles worker results in submission order.
-/

/-- An OS-level error as caught from `os.stat` / `os.path.getsize`:
the `errno` code and the accompanying message (`strerror`). -/
structure OSErr where
  errno : Int
  strerror : String
deriving DecidableEq, Repr

/-- The slice of a `stat` result the program reads: `st_size` and `st_mode`. -/
structure FileMeta where
  st_size : Nat
  st_mode : Nat
deriving DecidableEq, Repr

/-- A pure filesystem metadata oracle standing in for `os.stat` /
`os.path.getsize`: either both fields, or the `OSError` that the call raises. -/
abbrev Stat := String → Except OSErr FileMeta

/-- `FILE_CATEGORIES` from the source: category name to its extension list,
in the source's (insertion-ordered) dict order. -/
def FILE_CATEGORIES : List (String × List String) :=
  [("text", [".txt", ".log", ".md", ".csv"]),
   ("image", [".jpg", ".jpeg", ".png", ".gif", ".bmp", ".svg"]),
   ("executable", [".sh", ".exe", ".bin", ".run"]),
   ("video", [".mp4", ".mkv", ".avi", ".mov"]),
   ("audio", [".mp3", ".wav", ".ogg", ".flac"]),
   ("archive", [".zip", ".tar", ".gz", ".bz2", ".7z"])]

/-- `NORMAL_PERMISSIONS` from the source: the allow-list of permission masks. -/
def NORMAL_PERMISSIONS : List Nat := [0o755, 0o644, 0o700, 0o744]

/-- `default_size_threshold` from the source: 100 MB in bytes. -/
def default_size_threshold : Nat := 104857600

/-- Python's `oct`: render a nonnegative integer in octal with the `0o` prefix. -/
def oct (n : Nat) : String := "0o" ++ String.mk (Nat.toDigits 8 n)

/-- Python's `str.rfind` on a single character over an exploded string:
the last index at which `c` occurs, or `-1` when it does not occur. -/
def rfind (l : List Char) (c : Char) : Int :=
  (l.foldl (fun (st : Int × Int) x => (st.1 + 1, if x = c then st.1 else st.2)) (0, -1)).2

/-- `os.path.splitext` (posix): split off the extension at the last dot that
comes after the last path separator, except that a basename consisting only
of leading dots up to that dot has no extension. -/
def splitext (p : String) : String × String :=
  let l := p.data
  let sepIndex := rfind l '/'
  let dotIndex := rfind l '.'
  if sepIndex < dotIndex then
    if ((l.drop (sepIndex + 1).toNat).take (dotIndex - sepIndex - 1).toNat).all (fun ch => ch = '.') then
      (p, "")
    else
      (String.mk (l.take dotIndex.toNat), String.mk (l.drop dotIndex.toNat))
  else
    (p, "")

/-- Python's `str.lower`, restricted to ASCII (all extensions in
`FILE_CATEGORIES` are ASCII, so the comparison is unaffected). -/
def lower (s : String) : String := String.mk (s.data.map Char.toLower)

/-- The module-level `unknown_ext` table (`defaultdict(list)`): lowercased
extension to the list of paths recorded under it, in insertion order. -/
abbrev UnknownTbl := List (String × List String)

/-- `defaultdict(list)` update `m[k].append(v)`: append `v` to the list at key
`k`, creating the key at the end (Python dict insertion order) if absent. -/
def dictAppend {α : Type} (m : List (String × List α)) (k : String) (v : α) :
    List (String × List α) :=
  match m with
  | [] => [(k, [v])]
  | (k', vs) :: rest =>
      if k' = k then (k', vs ++ [v]) :: rest else (k', vs) :: dictAppend rest k v

/-- `defaultdict(int)` update `m[k] += v`. -/
def dictAdd (m : List (String × Nat)) (k : String) (v : Nat) : List (String × Nat) :=
  match m with
  | [] => [(k, v)]
  | (k', n) :: rest =>
      if k' = k then (k', n + v) :: rest else (k', n) :: dictAdd rest k v

/-- Read a `defaultdict(list)`-style table: the list at key `k`, `[]` if absent. -/
def dictGetList {α : Type} : List (String × List α) → String → List α
  | [], _ => []
  | (k', vs) :: rest, k => if k' = k then vs else dictGetList rest k

/-- Read a `defaultdict(int)`-style table: the total at key `k`, `0` if absent. -/
def dictGetNat : List (String × Nat) → String → Nat
  | [], _ => 0
  | (k', n) :: rest, k => if k' = k then n else dictGetNat rest k

/-- `get_file_category` from the source, with the module-level `unknown_ext`
table threaded as explicit state.  Splits the extension off `filename`,
lowercases it, and scans `FILE_CATEGORIES` in order; on no match it records
`file_path` under the lowercased extension and returns `"other"`. -/
def get_file_category (filename file_path : String) (tbl : UnknownTbl) :
    String × UnknownTbl :=
  match FILE_CATEGORIES.find? (fun ce => ce.2.contains (lower (splitext filename).2)) with
  | some ce => (ce.1, tbl)
  | none => ("other", dictAppend tbl (lower (splitext filename).2) file_path)

/-- The membership test at the heart of `check_permissions`: the mode is
masked with `0o777` and the result looked up in `NORMAL_PERMISSIONS`
(the `oct` / `int(..., 8)` round trip in the source is the identity). -/
def is_unusual_mode (mode : Nat) : Bool :=
  !(NORMAL_PERMISSIONS.contains (mode &&& 0o777))

/-- `check_permissions` from the source: stat the file, mask the mode to the
low nine permission bits, and flag `(path, oct mode)` when the masked mode is
not in `NORMAL_PERMISSIONS`.  An `OSError` is logged and yields no entry. -/
def check_permissions (stat : Stat) (file_path : String) : List (String × String) :=
  match stat file_path with
  | .ok st =>
      if is_unusual_mode st.st_mode then
        [(file_path, oct (st.st_mode &&& 0o777))]
      else []
  | .error _ => []

/-- `handle_os_error` from the source: the printed message chosen by `errno`,
with the default branch retaining the raw code and `strerror`. -/
def handle_os_error (e : OSErr) (file_path : String) : String :=
  if e.errno = 2 then "Error: File or directory does not exist: " ++ file_path
  else if e.errno = 13 then "Error: Permission denied for file: " ++ file_path
  else if e.errno = 9 then "Error: Bad file number for file: " ++ file_path
  else if e.errno = 21 then "Error: Trying to open a directory as a file: " ++ file_path
  else if e.errno = 20 then "Error: Not a directory: " ++ file_path
  else if e.errno = 25 then "Error: Not a terminal device: " ++ file_path
  else if e.errno = 3 then "Error: No such process while accessing: " ++ file_path
  else if e.errno = 5 then "Error: I/O error while accessing file: " ++ file_path
  else "Unexpected error (" ++ toString e.errno ++ ") with file " ++ file_path
         ++ ": " ++ e.strerror

/-- The error classification implicit in `handle_os_error`: one tag per
`errno` branch, named after the source's own comments (`ENOENT`, `EACCES`,
`EBADF`, `EISDIR`, `ENOTDIR`, `ENOTTY`, `ESRCH`, `EIO`), and a catch-all that
keeps the raw code and message. -/
inductive ErrClass where
  | notFound
  | permissionDenied
  | badDescriptor
  | isADirectory
  | notADirectory
  | notATerminal
  | noSuchProcess
  | ioError
  | unknown (errno : Int) (strerror : String)
deriving DecidableEq, Repr

/-- Which `handle_os_error` branch an error takes, as a classification value. -/
def classify_errno (e : OSErr) : ErrClass :=
  if e.errno = 2 then .notFound
  else if e.errno = 13 then .permissionDenied
  else if e.errno = 9 then .badDescriptor
  else if e.errno = 21 then .isADirectory
  else if e.errno = 20 then .notADirectory
  else if e.errno = 25 then .notATerminal
  else if e.errno = 3 then .noSuchProcess
  else if e.errno = 5 then .ioError
  else .unknown e.errno e.strerror

/-- The tuple `process_file` returns:
`(file_path, size, category, oct permissions, unusual_permissions)`. -/
structure FileRes where
  file_path : String
  size : Nat
  category : String
  permissions : String
  unusual_permissions : List (String × String)
deriving DecidableEq, Repr

/-- `process_file` from the source, against a pure `stat` oracle (the source
stats the same path three times - `getsize`, `os.stat`, and inside
`check_permissions` - which against a fixed oracle collapse to one lookup).
On `OSError` the error is logged and the sentinel
`(file_path, 0, "unknown", "", [])` is returned, leaving the table unchanged
(the exception fires before `get_file_category` runs). -/
def process_file (stat : Stat) (file_path : String) (tbl : UnknownTbl) :
    FileRes × UnknownTbl :=
  match stat file_path with
  | .ok st =>
      match get_file_category file_path file_path tbl with
      | (category, tbl') =>
          (⟨file_path, st.st_size, category, oct (st.st_mode &&& 0o777),
            check_permissions stat file_path⟩, tbl')
  | .error _ => (⟨file_path, 0, "unknown", "", []⟩, tbl)

/-- `quick_sort` from the source: pivot on the head, partition the tail into
sizes `≤` pivot (`smaller`) and `>` pivot (`larger`), and return
`quick_sort larger ++ [pivot] ++ quick_sort smaller` (descending by size). -/
def quick_sort (files : List (String × Nat)) : List (String × Nat) :=
  if files.length ≤ 1 then files
  else
    match files with
    | [] => []
    | pivot :: rest =>
        quick_sort (rest.filter (fun x => x.2 > pivot.2)) ++ [pivot] ++
          quick_sort (rest.filter (fun x => x.2 ≤ pivot.2))
termination_by files.length
decreasing_by
  · exact Nat.lt_succ_of_le (List.length_filter_le _ rest)
  · exact Nat.lt_succ_of_le (List.length_filter_le _ rest)

/-- The aggregated structure `traverse_directory_mp` returns:
`(categorized_files, total_sizes, unusual_permissions, large_files)`. -/
structure ScanResult where
  categorized_files : List (String × List (String × Nat))
  total_sizes : List (String × Nat)
  unusual_permissions : List (String × String)
  large_files : List (String × Nat)
deriving DecidableEq, Repr

/-- One iteration of the merge loop in `traverse_directory_mp`: the guard
`if size is not None` is always true (a failed file reports size `0`, never
`None`), so every result is appended to its category list, added to that
category's total, appended to `large_files` when strictly above the
threshold, and its unusual-permission entries extended onto the list. -/
def mergeResult (size_threshold : Nat) (acc : ScanResult) (r : FileRes) : ScanResult :=
  { categorized_files := dictAppend acc.categorized_files r.category (r.file_path, r.size)
    total_sizes := dictAdd acc.total_sizes r.category r.size
    unusual_permissions := acc.unusual_permissions ++ r.unusual_permissions
    large_files :=
      if r.size > size_threshold then acc.large_files ++ [(r.file_path, r.size)]
      else acc.large_files }

/-- The finalization loop of `traverse_directory_mp`:
`categorized_files[category] = quick_sort(categorized_files[category])`. -/
def finalizeResult (acc : ScanResult) : ScanResult :=
  { acc with categorized_files := acc.categorized_files.map (fun kv => (kv.1, quick_sort kv.2)) }

/-- Helper for `chunks`: consume the input, emitting a chunk every time the
current group reaches `max C 1` elements. -/
def chunksGo {α : Type} (C : Nat) : List α → List α → List (List α)
  | [], [] => []
  | [], cur => [cur.reverse]
  | x :: xs, cur =>
      if cur.length + 1 = max C 1 then (x :: cur).reverse :: chunksGo C xs []
      else chunksGo C xs (x :: cur)

/-- Split a list into consecutive chunks of size at most `max C 1`. -/
def chunks {α : Type} (C : Nat) (l : List α) : List (List α) := chunksGo C l []

/-- Modelled from `multiprocessing.Pool.map` semantics: the input is split
into bounded chunks, each chunk is mapped in its own worker process, and the
chunk results are reassembled in submission order (`Pool.map` returns results
in input order regardless of worker interleaving).  `C` is the concurrency
bound (`processes=cpu_count()` in the source). -/
def pool_map {α β : Type} (C : Nat) (f : α → β) (l : List α) : List β :=
  ((chunks C l).map (List.map f)).flatten

/-- `traverse_directory_mp` from the source, parametric in the enumerated
file list (the `os.walk` collection loop) and the pool's concurrency bound.
Each worker calls `process_file` against its own (fresh) copy of the
module-level table - with `multiprocessing`, worker-side table mutations
never reach the parent - and the parent merges the returned tuples, then
quick-sorts each category list. -/
def traverse_directory_mp (C : Nat) (stat : Stat) (files : List String)
    (size_threshold : Nat) : ScanResult :=
  finalizeResult
    ((pool_map C (fun p => (process_file stat p []).1) files).foldl
      (mergeResult size_threshold) ⟨[], [], [], []⟩)

/-- Sequential reference scan, modelled from the spec's words: "sequential
scanning of the same N files" - inspect the enumerated files one after
another in order and merge each result as it completes, then sort. -/
def sequential_scan (stat : Stat) (files : List String) (size_threshold : Nat) :
    ScanResult :=
  finalizeResult
    ((files.map (fun p => (process_file stat p []).1)).foldl
      (mergeResult size_threshold) ⟨[], [], [], []⟩)

/-- A directory tree for the entry point: the set of valid root directories,
the files `os.walk` enumerates under a valid root, and the `stat` oracle. -/
structure Fs where
  dirs : List String
  entries : String → List String
  stat : Stat

/-- Modelled from Python `os.walk` semantics (the enumeration loop at the top
of `traverse_directory_mp`): with the default `onerror=None`, walking a root
that does not exist or is not a directory raises inside the generator, the
error is swallowed, and nothing is yielded. -/
def walk_files (fs : Fs) (directory : String) : List String :=
  if fs.dirs.contains directory then fs.entries directory else []

/-- The `scan` entry point: enumerate with `os.walk`, then run
`traverse_directory_mp`'s dispatch-and-merge on the enumerated files.
The source performs no validation of `directory` here; validation lives only
in the interactive `get_valid_input` loop. -/
def scan (fs : Fs) (C : Nat) (directory : String) (size_threshold : Nat) : ScanResult :=
  traverse_directory_mp C fs.stat (walk_files fs directory) size_threshold

/-- The classification passes of successive runs threaded over the
module-level `unknown_ext` table: the table is created once at import
(line 20 of the source) and no traversal resets it, so a later run's
classifications start from whatever earlier runs left in the table. -/
def classify_run (files : List String) (tbl : UnknownTbl) : UnknownTbl :=
  files.foldl (fun t p => (get_file_category p p t).2) tbl

/-- Descending-by-size order: every element is at least as large as each
element after it. -/
def SortedBySizeDesc (l : List (String × Nat)) : Prop :=
  l.Sorted (fun a b => b.2 ≤ a.2)

/-- A filesystem oracle where every metadata read fails with `ENOENT`
(the file vanished between enumeration and stat). -/
def statGone : Stat := fun _ => .error ⟨2, "No such file or directory"⟩

/-- The spec's section-8 scenario oracle: `a.txt` is 500 bytes with mode
0644, `b.jpg` is 2,000,000 bytes with mode 0777, everything else vanished. -/
def demoStat : Stat := fun p =>
  if p = "a.txt" then .ok ⟨500, 0o644⟩
  else if p = "b.jpg" then .ok ⟨2000000, 0o777⟩
  else .error ⟨2, "No such file or directory"⟩

/-- A one-directory filesystem: `/data` exists and is empty. -/
def demoFs : Fs := ⟨["/data"], fun _ => [], statGone⟩

/-! ### Association-table lemmas -/

theorem dictGetNat_dictAdd_same (m : List (String × Nat)) (k : String) (v : Nat) :
    dictGetNat (dictAdd m k v) k = dictGetNat m k + v := by
  induction m with
  | nil => simp [dictAdd, dictGetNat]
  | cons kv rest ih =>
      obtain ⟨k₀, n⟩ := kv
      by_cases h0 : k₀ = k <;> simp [dictAdd, dictGetNat, h0, ih]

theorem dictGetNat_dictAdd_other (m : List (String × Nat)) (k k' : String) (v : Nat)
    (h : k' ≠ k) :
    dictGetNat (dictAdd m k v) k' = dictGetNat m k' := by
  induction m with
  | nil => simp [dictAdd, dictGetNat, Ne.symm h]
  | cons kv rest ih =>
      obtain ⟨k₀, n⟩ := kv
      by_cases h0 : k₀ = k
      · subst h0
        simp [dictAdd, dictGetNat, Ne.symm h]
      · simp [dictAdd, dictGetNat, h0, ih]

theorem dictGetList_dictAppend_same {α : Type} (m : List (String × List α)) (k : String)
    (v : α) :
    dictGetList (dictAppend m k v) k = dictGetList m k ++ [v] := by
  induction m with
  | nil => simp [dictAppend, dictGetList]
  | cons kv rest ih =>
      obtain ⟨k₀, vs⟩ := kv
      by_cases h0 : k₀ = k <;> simp [dictAppend, dictGetList, h0, ih]

theorem dictGetList_dictAppend_other {α : Type} (m : List (String × List α))
    (k k' : String) (v : α) (h : k' ≠ k) :
    dictGetList (dictAppend m k v) k' = dictGetList m k' := by
  induction m with
  | nil => simp [dictAppend, dictGetList, Ne.symm h]
  | cons kv rest ih =>
      obtain ⟨k₀, vs⟩ := kv
      by_cases h0 : k₀ = k
      · subst h0
        simp [dictAppend, dictGetList, Ne.symm h]
      · simp [dictAppend, dictGetList, h0, ih]

/-! ### `quick_sort` unfolding equations -/

theorem quick_sort_nil : quick_sort [] = [] := by
  rw [quick_sort.eq_def]; simp

theorem quick_sort_singleton (x : String × Nat) : quick_sort [x] = [x] := by
  rw [quick_sort.eq_def]; simp

theorem quick_sort_cons (pivot : String × Nat) (rest : List (String × Nat)) :
    quick_sort (pivot :: rest)
      = quick_sort (rest.filter (fun x => x.2 > pivot.2)) ++ [pivot] ++
          quick_sort (rest.filter (fun x => x.2 ≤ pivot.2)) := by
  cases rest with
  | nil => simp [quick_sort_nil, quick_sort_singleton]
  | cons y ys =>
      rw [quick_sort.eq_def]
      simp

/-! ### `quick_sort` correctness -/

theorem filter_partition_perm (n : Nat) (l : List (String × Nat)) :
    List.Perm (l.filter (fun x => x.2 > n) ++ l.filter (fun x => x.2 ≤ n)) l := by
  induction l with
  | nil => simp
  | cons x xs ih =>
      by_cases h : x.2 > n
      · have h2 : ¬ (x.2 ≤ n) := by omega
        simpa [List.filter_cons, h, h2] using ih.cons x
      · have h2 : x.2 ≤ n := by omega
        simp only [List.filter_cons]
        simp [h, h2]
        exact List.perm_middle.trans (ih.cons x)

theorem quick_sort_perm_aux :
    ∀ (n : Nat) (l : List (String × Nat)), l.length ≤ n → List.Perm (quick_sort l) l := by
  intro n
  induction n with
  | zero =>
      intro l hl
      have : l = [] := List.eq_nil_of_length_eq_zero (Nat.le_zero.mp hl)
      subst this
      simp [quick_sort_nil]
  | succ n ih =>
      intro l hl
      cases l with
      | nil => simp [quick_sort_nil]
      | cons pivot rest =>
          rw [quick_sort_cons]
          have hrest : rest.length ≤ n := by
            simpa using Nat.succ_le_succ_iff.mp hl
          have h1 : (rest.filter (fun x => x.2 > pivot.2)).length ≤ n :=
            le_trans (List.length_filter_le _ _) hrest
          have h2 : (rest.filter (fun x => x.2 ≤ pivot.2)).length ≤ n :=
            le_trans (List.length_filter_le _ _) hrest
          have pl := ih _ h1
          have ps := ih _ h2
          have step1 :
              List.Perm
                (quick_sort (rest.filter (fun x => x.2 > pivot.2)) ++ [pivot] ++
                  quick_sort (rest.filter (fun x => x.2 ≤ pivot.2)))
                (rest.filter (fun x => x.2 > pivot.2) ++ [pivot] ++
                  rest.filter (fun x => x.2 ≤ pivot.2)) :=
            (pl.append (List.Perm.refl [pivot])).append ps
          refine step1.trans ?_
          have step2 :
              rest.filter (fun x => x.2 > pivot.2) ++ [pivot] ++
                rest.filter (fun x => x.2 ≤ pivot.2)
              = rest.filter (fun x => x.2 > pivot.2) ++
                  pivot :: rest.filter (fun x => x.2 ≤ pivot.2) := by
            simp
          rw [step2]
          exact List.perm_middle.trans ((filter_partition_perm pivot.2 rest).cons pivot)

theorem quick_sort_perm (l : List (String × Nat)) : List.Perm (quick_sort l) l :=
  quick_sort_perm_aux l.length l le_rfl

theorem mem_quick_sort {x : String × Nat} {l : List (String × Nat)} :
    x ∈ quick_sort l ↔ x ∈ l :=
  (quick_sort_perm l).mem_iff

theorem quick_sort_sorted_aux :
    ∀ (n : Nat) (l : List (String × Nat)), l.length ≤ n →
      SortedBySizeDesc (quick_sort l) := by
  intro n
  induction n with
  | zero =>
      intro l hl
      have : l = [] := List.eq_nil_of_length_eq_zero (Nat.le_zero.mp hl)
      subst this
      simp [quick_sort_nil, SortedBySizeDesc]
  | succ n ih =>
      intro l hl
      cases l with
      | nil => simp [quick_sort_nil, SortedBySizeDesc]
      | cons pivot rest =>
          rw [quick_sort_cons]
          have hrest : rest.length ≤ n := by
            simpa using Nat.succ_le_succ_iff.mp hl
          have h1 : (rest.filter (fun x => x.2 > pivot.2)).length ≤ n :=
            le_trans (List.length_filter_le _ _) hrest
          have h2 : (rest.filter (fun x => x.2 ≤ pivot.2)).length ≤ n :=
            le_trans (List.length_filter_le _ _) hrest
          have sl := ih _ h1
          have ss := ih _ h2
          rw [List.append_assoc]
          unfold SortedBySizeDesc List.Sorted at sl ss ⊢
          rw [List.pairwise_append]
          refine ⟨sl, ?_, ?_⟩
          · rw [List.singleton_append, List.pairwise_cons]
            refine ⟨?_, ss⟩
            intro b hb
            have : b ∈ rest.filter (fun x => x.2 ≤ pivot.2) := mem_quick_sort.mp hb
            have := List.of_mem_filter this
            simpa using this
          · intro a ha b hb
            have ha' : a ∈ rest.filter (fun x => x.2 > pivot.2) := mem_quick_sort.mp ha
            have hagt : pivot.2 < a.2 := by
              have := List.of_mem_filter ha'
              simpa using this
            rw [List.singleton_append, List.mem_cons] at hb
            rcases hb with rfl | hb
            · exact le_of_lt hagt
            · have hb' : b ∈ rest.filter (fun x => x.2 ≤ pivot.2) := mem_quick_sort.mp hb
              have hble : b.2 ≤ pivot.2 := by
                have := List.of_mem_filter hb'
                simpa using this
              omega

theorem quick_sort_sorted (l : List (String × Nat)) : SortedBySizeDesc (quick_sort l) :=
  quick_sort_sorted_aux l.length l le_rfl

theorem quick_sort_of_sorted_aux :
    ∀ (n : Nat) (l : List (String × Nat)), l.length ≤ n →
      SortedBySizeDesc l → quick_sort l = l := by
  intro n
  induction n with
  | zero =>
      intro l hl _
      have : l = [] := List.eq_nil_of_length_eq_zero (Nat.le_zero.mp hl)
      subst this
      exact quick_sort_nil
  | succ n ih =>
      intro l hl hs
      cases l with
      | nil => exact quick_sort_nil
      | cons pivot rest =>
          have hrest : rest.length ≤ n := by
            simpa using Nat.succ_le_succ_iff.mp hl
          unfold SortedBySizeDesc List.Sorted at hs
          rw [List.pairwise_cons] at hs
          obtain ⟨hhead, htail⟩ := hs
          have hlar : rest.filter (fun x => x.2 > pivot.2) = [] := by
            rw [List.filter_eq_nil_iff]
            intro a ha
            have := hhead a ha
            simp
            omega
          have hsm : rest.filter (fun x => x.2 ≤ pivot.2) = rest := by
            rw [List.filter_eq_self]
            intro a ha
            have := hhead a ha
            simpa using this
          rw [quick_sort_cons, hlar, hsm, quick_sort_nil, ih _ hrest htail]
          simp

theorem quick_sort_idem (l : List (String × Nat)) :
    quick_sort (quick_sort l) = quick_sort l :=
  quick_sort_of_sorted_aux (quick_sort l).length _ le_rfl (quick_sort_sorted l)

/-- C4: `quick_sort` returns a permutation of its input ordered descending by
size; on the empty and singleton lists it returns the input unchanged; and it
is idempotent. -/
theorem C4_quick_sort_spec (l : List (String × Nat)) (x : String × Nat) :
    List.Perm (quick_sort l) l ∧
    SortedBySizeDesc (quick_sort l) ∧
    quick_sort ([] : List (String × Nat)) = [] ∧
    quick_sort [x] = [x] ∧
    quick_sort (quick_sort l) = quick_sort l :=
  ⟨quick_sort_perm l, quick_sort_sorted l, quick_sort_nil, quick_sort_singleton x,
    quick_sort_idem l⟩

/-! ### `process_file` facts -/

theorem get_file_category_fst (filename file_path : String) (tbl tbl' : UnknownTbl) :
    (get_file_category filename file_path tbl).1
      = (get_file_category filename file_path tbl').1 := by
  unfold get_file_category
  cases FILE_CATEGORIES.find? (fun ce => ce.2.contains (lower (splitext filename).2)) <;> rfl

theorem process_file_fst_tbl (stat : Stat) (p : String) (tbl tbl' : UnknownTbl) :
    (process_file stat p tbl).1 = (process_file stat p tbl').1 := by
  unfold process_file
  cases stat p with
  | error e => rfl
  | ok st =>
      cases hg : get_file_category p p tbl with
      | mk category t1 =>
          cases hg' : get_file_category p p tbl' with
          | mk category' t2 =>
              have : category = category' := by
                have := get_file_category_fst p p tbl tbl'
                rw [hg, hg'] at this
                exact this
              subst this
              rfl

theorem process_file_error (stat : Stat) (p : String) (tbl : UnknownTbl) (e : OSErr)
    (h : stat p = .error e) :
    process_file stat p tbl = (⟨p, 0, "unknown", "", []⟩, tbl) := by
  unfold process_file
  rw [h]

theorem process_file_ok (stat : Stat) (p : String) (tbl : UnknownTbl) (st : FileMeta)
    (h : stat p = .ok st) :
    (process_file stat p tbl).1 =
      ⟨p, st.st_size, (get_file_category p p tbl).1, oct (st.st_mode &&& 0o777),
        check_permissions stat p⟩ := by
  unfold process_file
  rw [h]

theorem process_file_path (stat : Stat) (p : String) (tbl : UnknownTbl) :
    (process_file stat p tbl).1.file_path = p := by
  unfold process_file
  cases stat p with
  | error e => rfl
  | ok st =>
      cases hg : get_file_category p p tbl with
      | mk category tbl' => simp [hg]

theorem process_file_unusual_path (stat : Stat) (p : String) (tbl : UnknownTbl) :
    ∀ x ∈ (process_file stat p tbl).1.unusual_permissions, x.1 = p := by
  unfold process_file
  cases h : stat p with
  | error e => simp
  | ok st =>
      cases hg : get_file_category p p tbl with
      | mk category tbl' =>
          simp only [hg]
          unfold check_permissions
          rw [h]
          by_cases hu : is_unusual_mode st.st_mode <;> simp [hu]

/-! ### `pool_map` collapses to `List.map` -/

theorem chunksGo_flatten {α : Type} (C : Nat) :
    ∀ (xs cur : List α), (chunksGo C xs cur).flatten = cur.reverse ++ xs := by
  intro xs
  induction xs with
  | nil =>
      intro cur
      cases cur <;> simp [chunksGo]
  | cons x xs ih =>
      intro cur
      by_cases h : cur.length + 1 = max C 1 <;> simp [chunksGo, h, ih]

theorem chunks_flatten {α : Type} (C : Nat) (l : List α) : (chunks C l).flatten = l := by
  simp [chunks, chunksGo_flatten]

theorem pool_map_eq_map {α β : Type} (C : Nat) (f : α → β) (l : List α) :
    pool_map C f l = l.map f := by
  unfold pool_map
  rw [← List.map_flatten, chunks_flatten]

/-! ### Flattening the merge loop -/

theorem foldl_merge_large (t : Nat) (rs : List FileRes) (acc : ScanResult) :
    (rs.foldl (mergeResult t) acc).large_files
      = acc.large_files ++
          rs.filterMap (fun r => if r.size > t then some (r.file_path, r.size) else none) := by
  induction rs generalizing acc with
  | nil => simp
  | cons r rs ih =>
      rw [List.foldl_cons, ih, List.filterMap_cons]
      by_cases h : r.size > t <;> simp [mergeResult, h]

theorem foldl_merge_unusual (t : Nat) (rs : List FileRes) (acc : ScanResult) :
    (rs.foldl (mergeResult t) acc).unusual_permissions
      = acc.unusual_permissions ++ (rs.map (fun r => r.unusual_permissions)).flatten := by
  induction rs generalizing acc with
  | nil => simp
  | cons r rs ih =>
      rw [List.foldl_cons, ih]
      simp [mergeResult]

theorem foldl_merge_total (t : Nat) (rs : List FileRes) (acc : ScanResult) (k : String) :
    dictGetNat (rs.foldl (mergeResult t) acc).total_sizes k
      = dictGetNat acc.total_sizes k
          + (rs.map (fun r => if r.category = k then r.size else 0)).sum := by
  induction rs generalizing acc with
  | nil => simp
  | cons r rs ih =>
      rw [List.foldl_cons, ih, List.map_cons, List.sum_cons]
      by_cases h : r.category = k
      · subst h
        rw [show (mergeResult t acc r).total_sizes = dictAdd acc.total_sizes r.category r.size
          from rfl]
        rw [dictGetNat_dictAdd_same]
        simp
        omega
      · rw [show (mergeResult t acc r).total_sizes = dictAdd acc.total_sizes r.category r.size
          from rfl]
        rw [dictGetNat_dictAdd_other _ _ _ _ (fun hh => h hh.symm)]
        simp [h]

theorem foldl_merge_cat (t : Nat) (rs : List FileRes) (acc : ScanResult) (k : String) :
    dictGetList (rs.foldl (mergeResult t) acc).categorized_files k
      = dictGetList acc.categorized_files k ++
          rs.filterMap
            (fun r => if r.category = k then some (r.file_path, r.size) else none) := by
  induction rs generalizing acc with
  | nil => simp
  | cons r rs ih =>
      rw [List.foldl_cons, ih, List.filterMap_cons]
      by_cases h : r.category = k
      · subst h
        rw [show (mergeResult t acc r).categorized_files
            = dictAppend acc.categorized_files r.category (r.file_path, r.size) from rfl]
        rw [dictGetList_dictAppend_same]
        simp
      · rw [show (mergeResult t acc r).categorized_files
            = dictAppend acc.categorized_files r.category (r.file_path, r.size) from rfl]
        rw [dictGetList_dictAppend_other _ _ _ _ (fun hh => h hh.symm)]
        simp [h]

/-! ### Finalization lemmas -/

theorem finalize_total (a : ScanResult) : (finalizeResult a).total_sizes = a.total_sizes :=
  rfl

theorem finalize_unusual (a : ScanResult) :
    (finalizeResult a).unusual_permissions = a.unusual_permissions := rfl

theorem finalize_large (a : ScanResult) : (finalizeResult a).large_files = a.large_files :=
  rfl

theorem dictGetList_map_quick_sort (m : List (String × List (String × Nat))) (k : String) :
    dictGetList (m.map (fun kv => (kv.1, quick_sort kv.2))) k
      = quick_sort (dictGetList m k) := by
  induction m with
  | nil => simp [dictGetList, quick_sort_nil]
  | cons kv rest ih =>
      obtain ⟨k₀, vs⟩ := kv
      by_cases h : k₀ = k <;> simp [dictGetList, h, ih]

theorem finalize_cat (a : ScanResult) (k : String) :
    dictGetList (finalizeResult a).categorized_files k
      = quick_sort (dictGetList a.categorized_files k) := by
  unfold finalizeResult
  exact dictGetList_map_quick_sort a.categorized_files k

/-! ### The traversal backbone: each accumulator as a function of the file list -/

theorem traverse_large_eq (C : Nat) (stat : Stat) (files : List String) (t : Nat) :
    (traverse_directory_mp C stat files t).large_files
      = (files.map (fun q => (process_file stat q []).1)).filterMap
          (fun r => if r.size > t then some (r.file_path, r.size) else none) := by
  unfold traverse_directory_mp
  rw [pool_map_eq_map, finalize_large, foldl_merge_large]
  rfl

theorem traverse_unusual_eq (C : Nat) (stat : Stat) (files : List String) (t : Nat) :
    (traverse_directory_mp C stat files t).unusual_permissions
      = ((files.map (fun q => (process_file stat q []).1)).map
          (fun r => r.unusual_permissions)).flatten := by
  unfold traverse_directory_mp
  rw [pool_map_eq_map, finalize_unusual, foldl_merge_unusual]
  rfl

theorem traverse_total_eq (C : Nat) (stat : Stat) (files : List String) (t : Nat)
    (k : String) :
    dictGetNat (traverse_directory_mp C stat files t).total_sizes k
      = ((files.map (fun q => (process_file stat q []).1)).map
          (fun r => if r.category = k then r.size else 0)).sum := by
  unfold traverse_directory_mp
  rw [pool_map_eq_map, finalize_total, foldl_merge_total]
  simp [dictGetNat]

theorem traverse_cat_eq (C : Nat) (stat : Stat) (files : List String) (t : Nat)
    (k : String) :
    dictGetList (traverse_directory_mp C stat files t).categorized_files k
      = quick_sort ((files.map (fun q => (process_file stat q []).1)).filterMap
          (fun r => if r.category = k then some (r.file_path, r.size) else none)) := by
  unfold traverse_directory_mp
  rw [pool_map_eq_map, finalize_cat, foldl_merge_cat]
  rfl

/-! ### Claim C2: bounded-concurrency scan refines the sequential scan -/

/-- C2: for any concurrency bound C with 1 ≤ C < N over the same N enumerated
files, the pooled scan produces the same aggregated totals as the sequential
scan: identical per-category totals, large-file count, and
unusual-permission count. -/
theorem C2_concurrent_matches_sequential (stat : Stat) (files : List String)
    (t C : Nat) (_hC : 1 ≤ C) (_hCN : C < files.length) :
    (∀ cat, dictGetNat (traverse_directory_mp C stat files t).total_sizes cat
        = dictGetNat (sequential_scan stat files t).total_sizes cat) ∧
    (traverse_directory_mp C stat files t).large_files.length
        = (sequential_scan stat files t).large_files.length ∧
    (traverse_directory_mp C stat files t).unusual_permissions.length
        = (sequential_scan stat files t).unusual_permissions.length := by
  have h : traverse_directory_mp C stat files t = sequential_scan stat files t := by
    unfold traverse_directory_mp sequential_scan
    rw [pool_map_eq_map]
  rw [h]
  exact ⟨fun _ => rfl, rfl, rfl⟩

theorem C2_concurrent_matches_sequential_witness :
    dictGetNat (traverse_directory_mp 1 demoStat ["a.txt", "b.jpg"] 1000000).total_sizes
        "text"
      = dictGetNat (sequential_scan demoStat ["a.txt", "b.jpg"] 1000000).total_sizes
          "text" :=
  (C2_concurrent_matches_sequential demoStat ["a.txt", "b.jpg"] 1000000 1
    (by decide) (by decide)).1 "text"

/-! ### Claim C3: the unrecognized-extension table across runs -/

/-- C3 (evaluating the code at the failing input): the module-level
`unknown_ext` table is never reset between traversal runs, so after a first
run that classified `a.xyz` and a second run that classified `b.txt` and
`c.qqq`, the table still contains the first run's `.xyz` entry - the second
run's table does not contain only entries from files of the second scan. -/
theorem C3_table_persistence :
    classify_run ["b.txt", "c.qqq"] (classify_run ["a.xyz"] [])
      = [(".xyz", ["a.xyz"]), (".qqq", ["c.qqq"])] ∧
    dictGetList (classify_run ["b.txt", "c.qqq"] (classify_run ["a.xyz"] [])) ".xyz"
      = ["a.xyz"] := by
  constructor <;> rfl

/-! ### Claim C7: the permission policy -/

theorem and_511_eq_mod (m : Nat) : m &&& 511 = m % 512 := by
  have h := Nat.and_pow_two_sub_one_eq_mod m 9
  norm_num at h
  exact h

/-- C7: the unusual-permission decision depends only on the low 9 permission
bits of the mode (the mask `& 0o777` discards setuid/setgid/sticky); mode
0644 is never flagged, and mode 0777 is always flagged. -/
theorem C7_permission_policy :
    (∀ m : Nat, is_unusual_mode m = is_unusual_mode (m % 512)) ∧
    (∀ (stat : Stat) (p : String) (st : FileMeta), stat p = .ok st →
        (check_permissions stat p = [] ↔ is_unusual_mode st.st_mode = false)) ∧
    (∀ (stat : Stat) (p : String) (sz : Nat), stat p = .ok ⟨sz, 0o644⟩ →
        check_permissions stat p = []) ∧
    (∀ (stat : Stat) (p : String) (sz : Nat), stat p = .ok ⟨sz, 0o777⟩ →
        check_permissions stat p = [(p, "0o777")]) := by
  refine ⟨?_, ?_, ?_, ?_⟩
  · intro m
    unfold is_unusual_mode
    rw [show (0o777 : Nat) = 511 from rfl, and_511_eq_mod m, and_511_eq_mod (m % 512)]
    have h2 : m % 512 % 512 = m % 512 := by omega
    rw [h2]
  · intro stat p st h
    unfold check_permissions
    rw [h]
    by_cases hu : is_unusual_mode st.st_mode <;> simp [hu]
  · intro stat p sz h
    unfold check_permissions
    rw [h]
    have hu : is_unusual_mode 0o644 = false := by decide
    show (if is_unusual_mode 0o644 then [(p, oct (0o644 &&& 0o777))] else []) = []
    simp [hu]
  · intro stat p sz h
    unfold check_permissions
    rw [h]
    have hu : is_unusual_mode 0o777 = true := by decide
    have ho : oct 511 = "0o777" := by decide
    have ho2 : oct (0o777 &&& 0o777) = "0o777" := by decide
    show (if is_unusual_mode 0o777 then [(p, oct (0o777 &&& 0o777))] else [])
      = [(p, "0o777")]
    simp [hu, ho, ho2]

theorem C7_permission_policy_witness :
    check_permissions demoStat "a.txt" = [] ∧
    check_permissions demoStat "b.jpg" = [("b.jpg", "0o777")] :=
  ⟨C7_permission_policy.2.2.1 demoStat "a.txt" 500 (by rfl),
   C7_permission_policy.2.2.2 demoStat "b.jpg" 2000000 (by rfl)⟩

/-! ### Claim C9: the error taxonomy -/

/-- C9 (amended): each of the errnos 2 (ENOENT), 13 (EACCES), 9 (EBADF),
21 (EISDIR), 20 (ENOTDIR), 25 (ENOTTY: not a terminal device - not
"too many open files"), 3 (ESRCH) and 5 (EIO) is mapped to its own
classification, and every other errno is classified Unknown, retaining the
raw code and message. -/
theorem C9_error_taxonomy :
    (∀ s, classify_errno ⟨2, s⟩ = .notFound) ∧
    (∀ s, classify_errno ⟨13, s⟩ = .permissionDenied) ∧
    (∀ s, classify_errno ⟨9, s⟩ = .badDescriptor) ∧
    (∀ s, classify_errno ⟨21, s⟩ = .isADirectory) ∧
    (∀ s, classify_errno ⟨20, s⟩ = .notADirectory) ∧
    (∀ s, classify_errno ⟨25, s⟩ = .notATerminal) ∧
    (∀ s, classify_errno ⟨3, s⟩ = .noSuchProcess) ∧
    (∀ s, classify_errno ⟨5, s⟩ = .ioError) ∧
    (∀ (e : Int) (s pth : String), e ∉ ([2, 13, 9, 21, 20, 25, 3, 5] : List Int) →
      classify_errno ⟨e, s⟩ = .unknown e s ∧
      handle_os_error ⟨e, s⟩ pth
        = "Unexpected error (" ++ toString e ++ ") with file " ++ pth ++ ": " ++ s) := by
  refine ⟨fun s => rfl, fun s => rfl, fun s => rfl, fun s => rfl, fun s => rfl,
    fun s => rfl, fun s => rfl, fun s => rfl, ?_⟩
  intro e s pth h
  simp only [List.mem_cons, List.not_mem_nil, or_false] at h
  push_neg at h
  obtain ⟨h2, h13, h9, h21, h20, h25, h3, h5⟩ := h
  constructor
  · unfold classify_errno
    simp [h2, h13, h9, h21, h20, h25, h3, h5]
  · unfold handle_os_error
    simp [h2, h13, h9, h21, h20, h25, h3, h5]

theorem C9_error_taxonomy_witness :
    classify_errno ⟨999, "Unexpected error"⟩ = .unknown 999 "Unexpected error" ∧
    handle_os_error ⟨999, "Unexpected error"⟩ "/home/x"
      = "Unexpected error (" ++ toString (999 : Int) ++ ") with file /home/x"
          ++ ": " ++ "Unexpected error" :=
  C9_error_taxonomy.2.2.2.2.2.2.2.2 999 "Unexpected error" "/home/x" (by decide)

/-- C9 counterexample: the errno for "too many open files" (EMFILE, 24) has
no dedicated branch - it falls to the Unknown default - while the errno-25
branch that the claim attributes to TooManyOpenFiles is the ENOTTY
"not a terminal device" classification. -/
theorem C9_counterexample :
    classify_errno ⟨24, "Too many open files"⟩ = .unknown 24 "Too many open files" ∧
    handle_os_error ⟨24, "Too many open files"⟩ "/f"
      = "Unexpected error (24) with file /f: Too many open files" ∧
    handle_os_error ⟨25, "Inappropriate ioctl for device"⟩ "/f"
      = "Error: Not a terminal device: /f" := by
  refine ⟨rfl, ?_, rfl⟩
  rfl

/-! ### Claim C5: classification by extension -/

theorem find_category_of_mem (cat : String) (exts : List String) (ext : String)
    (hcat : (cat, exts) ∈ FILE_CATEGORIES) (hmem : ext ∈ exts) :
    FILE_CATEGORIES.find? (fun ce => ce.2.contains ext) = some (cat, exts) := by
  fin_cases hcat <;> fin_cases hmem <;> decide

theorem find_category_of_not_mem (ext : String)
    (h : ∀ ce ∈ FILE_CATEGORIES, ext ∉ ce.2) :
    FILE_CATEGORIES.find? (fun ce => ce.2.contains ext) = none := by
  rw [List.find?_eq_none]
  intro ce hce
  simpa using h ce hce

/-- C5: a filename whose lowercased extension is listed under a category is
classified as that category with the table untouched; any other extension is
classified "other" and the (lowercased extension, path) pair is recorded in
the unrecognized-extension table. -/
theorem C5_classify (filename file_path : String) (tbl : UnknownTbl) (ext : String)
    (hext : lower (splitext filename).2 = ext) :
    (∀ cat exts, (cat, exts) ∈ FILE_CATEGORIES → ext ∈ exts →
        get_file_category filename file_path tbl = (cat, tbl)) ∧
    ((∀ ce ∈ FILE_CATEGORIES, ext ∉ ce.2) →
        get_file_category filename file_path tbl
          = ("other", dictAppend tbl ext file_path)) := by
  constructor
  · intro cat exts hcat hmem
    unfold get_file_category
    rw [hext, find_category_of_mem cat exts ext hcat hmem]
  · intro h
    unfold get_file_category
    rw [hext, find_category_of_not_mem ext h]

theorem C5_classify_witness :
    get_file_category "photo.JPG" "/d/photo.JPG" [] = ("image", []) ∧
    get_file_category "a.xyz" "/d/a.xyz" [] = ("other", [(".xyz", ["/d/a.xyz"])]) := by
  constructor
  · exact (C5_classify "photo.JPG" "/d/photo.JPG" [] ".jpg" (by rfl)).1 "image"
      [".jpg", ".jpeg", ".png", ".gif", ".bmp", ".svg"] (by decide) (by decide)
  · exact (C5_classify "a.xyz" "/d/a.xyz" [] ".xyz" (by rfl)).2 (by decide)

/-! ### Claim C6: the large-file threshold -/

theorem large_count_aux (stat : Stat) (t : Nat) (p : String) :
    ∀ (files : List String),
      (((files.map (fun q => (process_file stat q []).1)).filterMap
          (fun r => if r.size > t then some (r.file_path, r.size) else none)).filter
        (fun x => x.1 = p)).length
        = files.count p * (if t < (process_file stat p []).1.size then 1 else 0) := by
  intro files
  induction files with
  | nil => simp
  | cons q fs ih =>
      have hpath : (process_file stat q []).1.file_path = q := process_file_path stat q []
      rw [List.map_cons, List.filterMap_cons, List.count_cons]
      by_cases hlt : (process_file stat q []).1.size > t
      · rw [if_pos hlt, List.filter_cons]
        by_cases hq : q = p
        · subst hq
          rw [hpath]
          rw [if_pos (by simp), List.length_cons, ih, if_pos hlt]
          rw [show (List.count q fs + if q == q then 1 else 0)
              = List.count q fs + 1 from by simp]
          ring
        · rw [hpath, if_neg (by simpa using hq), ih]
          rw [show (List.count p fs + if q == p then 1 else 0)
              = List.count p fs from by simp [hq]]
      · rw [if_neg hlt, ih]
        by_cases hq : q = p
        · subst hq
          rw [if_neg hlt]
          rw [show (List.count q fs + if q == q then 1 else 0)
              = List.count q fs + 1 from by simp]
          simp
        · rw [show (List.count p fs + if q == p then 1 else 0)
              = List.count p fs from by simp [hq]]

/-- C6: a successfully inspected file appears in the large-file list exactly
once when its size strictly exceeds the threshold, and not at all when its
size is at most the threshold (equality excluded). -/
theorem C6_large_files (C : Nat) (stat : Stat) (files : List String) (t : Nat)
    (p : String) (st : FileMeta) (hstat : stat p = .ok st)
    (hcount : files.count p = 1) :
    ((traverse_directory_mp C stat files t).large_files.filter
        (fun x => x.1 = p)).length
      = if t < st.st_size then 1 else 0 := by
  rw [traverse_large_eq, large_count_aux, hcount]
  have hsize : (process_file stat p []).1.size = st.st_size := by
    rw [process_file_ok stat p [] st hstat]
  rw [hsize, Nat.one_mul]

theorem C6_large_files_witness :
    ((traverse_directory_mp 2 demoStat ["a.txt", "b.jpg"] 1000000).large_files.filter
        (fun x => x.1 = "b.jpg")).length
      = if (1000000 : Nat) < 2000000 then 1 else 0 :=
  C6_large_files 2 demoStat ["a.txt", "b.jpg"] 1000000 "b.jpg" ⟨2000000, 0o777⟩
    (by rfl) (by decide)

/-! ### Claim C8: an invalid root directory -/

/-- C8 counterexample: invoked directly on a root that does not exist, the
scan does not fail before dispatch - it returns an ordinary (empty) result. -/
theorem C8_counterexample : scan demoFs 4 "/nope" 100 = ⟨[], [], [], []⟩ := by
  rfl

/-- C8 (amended): invoked directly on a path that is not a valid directory,
the scan performs no validation and raises no error: the walk enumerates no
files, no per-file work is dispatched, and the empty result is returned. -/
theorem C8_invalid_directory (fs : Fs) (C t : Nat) (d : String) (hd : d ∉ fs.dirs) :
    scan fs C d t = ⟨[], [], [], []⟩ := by
  have hc : fs.dirs.contains d = false := by
    simpa using hd
  unfold scan walk_files
  rw [hc]
  rfl

theorem C8_invalid_directory_witness : scan demoFs 3 "/other" 50 = ⟨[], [], [], []⟩ :=
  C8_invalid_directory demoFs 3 50 "/other" (by decide)

/-! ### Claims C1 and C10: what happens to a failed file -/

theorem mem_unknown_of_error (C : Nat) (stat : Stat) (files : List String) (t : Nat)
    (p : String) (e : OSErr) (hfail : stat p = .error e) (hp : p ∈ files) :
    (p, 0) ∈ dictGetList (traverse_directory_mp C stat files t).categorized_files
        "unknown" := by
  rw [traverse_cat_eq, mem_quick_sort, List.mem_filterMap]
  refine ⟨(process_file stat p []).1, List.mem_map_of_mem _ hp, ?_⟩
  rw [show (process_file stat p []).1 = ⟨p, 0, "unknown", "", []⟩ from by
    rw [process_file_error stat p [] e hfail]]
  simp

theorem sum_map_filter_ne (g : String → Nat) (p : String) (hgp : g p = 0) :
    ∀ (files : List String),
      ((files.filter (fun q => q ≠ p)).map g).sum = (files.map g).sum := by
  intro files
  induction files with
  | nil => simp
  | cons q fs ih =>
      rw [List.filter_cons]
      by_cases hq : q = p
      · subst hq
        rw [if_neg (by simp)]
        rw [ih, List.map_cons, List.sum_cons, hgp]
        omega
      · rw [if_pos (by simpa using hq)]
        rw [List.map_cons, List.sum_cons, ih, List.map_cons, List.sum_cons]

/-- C1 (amended): a per-file OS failure is caught at the `process_file`
boundary and converted to the sentinel record `(path, 0, "unknown", "", [])`;
the failed file never appears in the large-file list or the
unusual-permission list and adds zero bytes to every category total
(dropping its occurrences changes no total), but it is not excluded from the
category table: it appears there under "unknown" with size 0. -/
theorem C1_failure_containment (C : Nat) (stat : Stat) (files : List String)
    (t : Nat) (p : String) (e : OSErr) (tbl : UnknownTbl)
    (hfail : stat p = .error e) :
    (process_file stat p tbl).1 = ⟨p, 0, "unknown", "", []⟩ ∧
    (∀ s, (p, s) ∉ (traverse_directory_mp C stat files t).large_files) ∧
    (∀ x ∈ (traverse_directory_mp C stat files t).unusual_permissions, x.1 ≠ p) ∧
    (∀ cat, dictGetNat (traverse_directory_mp C stat files t).total_sizes cat
        = dictGetNat
            (traverse_directory_mp C stat (files.filter (fun q => q ≠ p)) t).total_sizes
            cat) ∧
    (p ∈ files →
      (p, 0) ∈ dictGetList (traverse_directory_mp C stat files t).categorized_files
          "unknown") := by
  refine ⟨?_, ?_, ?_, ?_, ?_⟩
  · rw [process_file_error stat p tbl e hfail]
  · intro s hmem
    rw [traverse_large_eq, List.mem_filterMap] at hmem
    obtain ⟨r, hr, heq⟩ := hmem
    rw [List.mem_map] at hr
    obtain ⟨q, hq, rfl⟩ := hr
    by_cases hlt : (process_file stat q []).1.size > t
    · rw [if_pos hlt] at heq
      have hpq : (process_file stat q []).1.file_path = q := process_file_path stat q []
      have hqp : q = p := by
        have h1 := congrArg Prod.fst (Option.some.inj heq)
        simpa [hpq] using h1
      subst hqp
      rw [show (process_file stat q []).1 = ⟨q, 0, "unknown", "", []⟩ from by
        rw [process_file_error stat q [] e hfail]] at hlt
      simp at hlt
    · rw [if_neg hlt] at heq
      exact Option.noConfusion heq
  · intro x hx
    rw [traverse_unusual_eq, List.mem_flatten] at hx
    obtain ⟨lst, hlst, hxl⟩ := hx
    rw [List.mem_map] at hlst
    obtain ⟨r, hr, rfl⟩ := hlst
    rw [List.mem_map] at hr
    obtain ⟨q, hq, rfl⟩ := hr
    have hxq : x.1 = q := process_file_unusual_path stat q [] x hxl
    intro hxp
    have hqp : q = p := by rw [← hxq, hxp]
    subst hqp
    rw [show (process_file stat q []).1 = ⟨q, 0, "unknown", "", []⟩ from by
      rw [process_file_error stat q [] e hfail]] at hxl
    simp at hxl
  · intro cat
    rw [traverse_total_eq, traverse_total_eq, List.map_map, List.map_map]
    have hgp : ((fun r : FileRes => if r.category = cat then r.size else 0) ∘
        (fun q => (process_file stat q []).1)) p = 0 := by
      simp only [Function.comp]
      rw [show (process_file stat p []).1 = ⟨p, 0, "unknown", "", []⟩ from by
        rw [process_file_error stat p [] e hfail]]
      simp
    exact (sum_map_filter_ne _ p hgp files).symm
  · intro hp
    exact mem_unknown_of_error C stat files t p e hfail hp

theorem C1_failure_containment_witness :
    (process_file statGone "gone.txt" []).1 = ⟨"gone.txt", 0, "unknown", "", []⟩ ∧
    ("gone.txt", (0 : Nat)) ∉
      (traverse_directory_mp 1 statGone ["gone.txt"] 100).large_files := by
  have h := C1_failure_containment 1 statGone ["gone.txt"] 100 "gone.txt"
    ⟨2, "No such file or directory"⟩ [] (by rfl)
  exact ⟨h.1, h.2.1 0⟩

/-- C1 counterexample: the failed file is not excluded from every
accumulator - the returned category table contains it, under the sentinel
category "unknown", with size 0. -/
theorem C1_counterexample :
    (traverse_directory_mp 1 statGone ["gone.txt"] 100).categorized_files
      = [("unknown", [("gone.txt", 0)])] := by
  have h : pool_map 1 (fun p => (process_file statGone p []).1) ["gone.txt"]
      = [⟨"gone.txt", 0, "unknown", "", []⟩] := by
    rw [pool_map_eq_map]
    rfl
  unfold traverse_directory_mp
  rw [h]
  simp [finalizeResult, mergeResult, dictAppend, dictAdd, quick_sort_singleton]

/-- C10: a path whose metadata read fails does not propagate the exception -
`process_file` returns the sentinel tuple `(path, 0, "unknown", "", [])` - and
consequently the failed file surfaces in the final result under the category
"unknown", which is none of the seven spec categories, with recorded size 0. -/
theorem C10_sentinel_unknown (stat : Stat) (p : String) (e : OSErr) (tbl : UnknownTbl)
    (hfail : stat p = .error e) :
    process_file stat p tbl = (⟨p, 0, "unknown", "", []⟩, tbl) ∧
    (∀ (C : Nat) (files : List String) (t : Nat), p ∈ files →
        (p, 0) ∈ dictGetList (traverse_directory_mp C stat files t).categorized_files
            "unknown") ∧
    (∀ ce ∈ FILE_CATEGORIES, ce.1 ≠ "unknown") ∧ ("other" : String) ≠ "unknown" := by
  refine ⟨process_file_error stat p tbl e hfail, ?_, by decide, by decide⟩
  intro C files t hp
  exact mem_unknown_of_error C stat files t p e hfail hp

theorem C10_sentinel_unknown_witness :
    process_file statGone "gone.txt" [] = (⟨"gone.txt", 0, "unknown", "", []⟩, []) ∧
    ("gone.txt", (0 : Nat)) ∈ dictGetList
        (traverse_directory_mp 1 statGone ["gone.txt"] 100).categorized_files
        "unknown" := by
  have h := C10_sentinel_unknown statGone "gone.txt" ⟨2, "No such file or directory"⟩ []
    (by rfl)
  exact ⟨h.1, h.2.1 1 ["gone.txt"] 100 (by decide)⟩
